import Mathlib

/-!
Shallow embedding of the question-generation response pipeline and the
client-side quiz assembly / navigation / scoring flow of the learning-system
repository.

Sources embedded here:
 - `src/pages/api/auto-generate-question.ts` (the "options + answer" variant of
   the generation endpoint; its post-stream buffer processing),
 - `src/unnamed/part_001` (the app-route `POST` variant using
   "choices with is_correct flags"),
 - `src/unnamed/part_002` (the `StudentTest` component: `fetchQuestions`
   filtering and sampling, `handleAnswerSelect` / `handleNextQuestion` /
   `handlePreviousQuestion` navigation, and `handleSubmit` scoring).

JavaScript runtime behaviour that the code relies on (`JSON.parse`,
`JSON.stringify`, `String.prototype.toLowerCase`, `Array.prototype.includes`,
truthiness, member access, the non-greedy regex match) is modelled explicitly;
each such model carries a comment stating the JS semantics it reproduces.
-/

namespace LearningSystem

/-- JSON values as produced by `JSON.parse`. Numbers are modelled as integers
(the generator's schema uses no fractional numbers; the model's parser rejects
fraction/exponent syntax, which no claim depends on). -/
inductive Json where
  | null
  | bool (b : Bool)
  | num (n : Int)
  | str (s : String)
  | arr (elems : List Json)
  | obj (fields : List (String × Json))

/-- The left-brace character, written via its code point. -/
def lbrace : Char := Char.ofNat 123

/-- The right-brace character, written via its code point. -/
def rbrace : Char := Char.ofNat 125

/-! JS primitive semantics -/

/-- JS strict equality `===` restricted to values produced by `JSON.parse`.
Primitives compare structurally; arrays and objects compare by reference, and
two distinct nodes of a freshly parsed document are never reference-equal, so
they compare unequal here. -/
def jsEq : Json → Json → Bool
  | .null, .null => true
  | .bool a, .bool b => a == b
  | .num a, .num b => a == b
  | .str a, .str b => a == b
  | _, _ => false

/-- JS truthiness of a possibly-undefined value (`none` = `undefined`):
`undefined`, `null`, `false`, `0` and `""` are falsy; everything else is
truthy. -/
def truthy : Option Json → Bool
  | none => false
  | some .null => false
  | some (.bool b) => b
  | some (.num n) => n != 0
  | some (.str s) => !s.isEmpty
  | some (.arr _) => true
  | some (.obj _) => true

/-- Property read `o[k]` on an object: `undefined` (`none`) when the key is
absent. Objects built by this model have unique keys (duplicates are collapsed
at parse time the way `JSON.parse` collapses them), so first-match lookup is
the JS lookup. Reading a property of a non-object primitive yields `undefined`
for the schema keys used here. -/
def jsGet : Json → String → Option Json
  | .obj fields, k => fields.lookup k
  | _, _ => none

/-- Member access `v.k` as an expression that can throw: on `undefined` or
`null` it raises a `TypeError`; on other primitives it yields `undefined` for
the keys used by this code; on objects it is a property read. -/
def jsMember : Option Json → String → Except Unit (Option Json)
  | none, _ => .error ()
  | some .null, _ => .error ()
  | some (.obj fields), k => .ok (jsGet (.obj fields) k)
  | some _, _ => .ok none

/-- JS `String.prototype.toLowerCase` (ASCII range, which covers the
difficulty labels the endpoint distinguishes). -/
def jsToLower (s : String) : String := String.mk (s.data.map Char.toLower)

/-- Test whether the list beginning of `hay` is exactly `pat`. -/
def beginsWith : List Char → List Char → Bool
  | _, [] => true
  | [], _ :: _ => false
  | a :: as, b :: bs => a == b && beginsWith as bs

/-- Test whether `pat` occurs as a contiguous sublist of `hay`; models JS
`String.prototype.includes`. -/
def hasSubList (pat : List Char) : List Char → Bool
  | [] => beginsWith [] pat
  | c :: t => beginsWith (c :: t) pat || hasSubList pat t

/-- Substring containment on strings, models `fullResponse.includes(...)`. -/
def containsSub (s pat : String) : Bool := hasSubList pat.data s.data

/-! The non-greedy brace regex -/

/-- Collect the characters up to and including the first right brace, failing
when none occurs. -/
def upToRBrace : List Char → Option (List Char)
  | [] => none
  | c :: rest => if c == rbrace then some [c] else (upToRBrace rest).map (c :: ·)

/-- First match of the non-greedy pattern of `fullResponse.match` with pattern
left-brace, any characters (lazy), right-brace: the segment from the first
left brace through the first right brace after it. When the first left brace
has no right brace after it, no later start position can succeed either
(every right brace after a later left brace also lies after the first), so
the whole match fails — exactly this function's behaviour. -/
def extractJson : List Char → Option (List Char)
  | [] => none
  | c :: rest =>
    if c == lbrace then (upToRBrace rest).map (fun body => c :: body)
    else extractJson rest

/-! A model of JSON.parse -/

/-- JSON whitespace. -/
def isJsonWs (c : Char) : Bool := c == ' ' || c == '\n' || c == '\t' || c == '\r'

/-- Drop leading JSON whitespace. -/
def skipWs (cs : List Char) : List Char := cs.dropWhile isJsonWs

/-- Value of an ASCII hex digit. -/
def hexVal (c : Char) : Option Nat :=
  if '0' ≤ c && c ≤ '9' then some (c.toNat - 48)
  else if 'a' ≤ c && c ≤ 'f' then some (c.toNat - 87)
  else if 'A' ≤ c && c ≤ 'F' then some (c.toNat - 70)
  else none

/-- Parse the body of a JSON string literal after the opening quote, handling
the escape sequences of the JSON grammar; returns the decoded characters and
the input after the closing quote. -/
def parseStringBody : List Char → Option (List Char × List Char)
  | [] => none
  | c :: rest =>
    if c == '"' then some ([], rest)
    else if c == '\\' then
      match rest with
      | [] => none
      | e :: rest2 =>
        if e == '"' || e == '\\' || e == '/' then
          (parseStringBody rest2).map (fun (s, r) => (e :: s, r))
        else if e == 'n' then (parseStringBody rest2).map (fun (s, r) => ('\n' :: s, r))
        else if e == 't' then (parseStringBody rest2).map (fun (s, r) => ('\t' :: s, r))
        else if e == 'r' then (parseStringBody rest2).map (fun (s, r) => ('\r' :: s, r))
        else if e == 'b' then (parseStringBody rest2).map (fun (s, r) => (Char.ofNat 8 :: s, r))
        else if e == 'f' then (parseStringBody rest2).map (fun (s, r) => (Char.ofNat 12 :: s, r))
        else if e == 'u' then
          match rest2 with
          | h1 :: h2 :: h3 :: h4 :: rest6 =>
            match hexVal h1, hexVal h2, hexVal h3, hexVal h4 with
            | some a, some b, some c3, some d =>
              (parseStringBody rest6).map
                (fun (s, r) => (Char.ofNat (((a * 16 + b) * 16 + c3) * 16 + d) :: s, r))
            | _, _, _, _ => none
          | _ => none
        else none
    else (parseStringBody rest).map (fun (s, r) => (c :: s, r))

/-- Digits of a decimal numeral folded into a natural number. -/
def digitsToNat (ds : List Char) : Nat := ds.foldl (fun n c => 10 * n + (c.toNat - 48)) 0

/-- Replace an object field in place when the key already exists, append it
otherwise; used both for `JSON.parse` duplicate-key collapsing (last value
wins, first position kept) and for object-spread overrides in the handler. -/
def overrideField (fs : List (String × Json)) (k : String) (v : Json) : List (String × Json) :=
  if fs.any (fun p => p.1 == k) then fs.map (fun p => if p.1 == k then (k, v) else p)
  else fs ++ [(k, v)]

/-- Collapse duplicate keys the way `JSON.parse` does: last value wins, first
insertion position is kept. -/
def dedupFields (fs : List (String × Json)) : List (String × Json) :=
  fs.foldl (fun acc kv => overrideField acc kv.1 kv.2) []

mutual

/-- Fuel-indexed recursive-descent parse of one JSON value; returns the value
and the unconsumed input. Models `JSON.parse` on the grammar the endpoint can
receive (integer numerals; see `Json`). -/
def parseVal : Nat → List Char → Option (Json × List Char)
  | 0, _ => none
  | f + 1, cs =>
    match skipWs cs with
    | [] => none
    | c :: rest =>
      if c == lbrace then
        parseFields f (skipWs rest)
      else if c == '[' then
        parseElems f (skipWs rest)
      else if c == '"' then
        (parseStringBody rest).map (fun (s, r) => (Json.str (String.mk s), r))
      else if beginsWith (c :: rest) "true".data then
        some (Json.bool true, (c :: rest).drop 4)
      else if beginsWith (c :: rest) "false".data then
        some (Json.bool false, (c :: rest).drop 5)
      else if beginsWith (c :: rest) "null".data then
        some (Json.null, (c :: rest).drop 4)
      else if c == '-' then
        match rest.span (fun d => d.isDigit) with
        | ([], _) => none
        | (ds, r) => some (Json.num (-(digitsToNat ds : Int)), r)
      else if c.isDigit then
        match (c :: rest).span (fun d => d.isDigit) with
        | (ds, r) => some (Json.num (digitsToNat ds : Int), r)
      else none
termination_by structural fuel _ => fuel

/-- Parse what follows the opening bracket of an array: either the immediate
closing bracket or a comma-separated element list. -/
def parseElems : Nat → List Char → Option (Json × List Char)
  | 0, _ => none
  | f + 1, cs =>
    match cs with
    | [] => none
    | c :: rest =>
      if c == ']' then some (Json.arr [], rest)
      else
        match parseVal f (c :: rest) with
        | none => none
        | some (v, r) =>
          match parseElemsTail f (skipWs r) with
          | none => none
          | some (vs, r2) => some (Json.arr (v :: vs), r2)
termination_by structural fuel _ => fuel

/-- Parse the continuation of an array after one element: a closing bracket or
a comma followed by further elements. -/
def parseElemsTail : Nat → List Char → Option (List Json × List Char)
  | 0, _ => none
  | f + 1, cs =>
    match cs with
    | [] => none
    | c :: rest =>
      if c == ']' then some ([], rest)
      else if c == ',' then
        match parseVal f rest with
        | none => none
        | some (v, r) =>
          match parseElemsTail f (skipWs r) with
          | none => none
          | some (vs, r2) => some (v :: vs, r2)
      else none
termination_by structural fuel _ => fuel

/-- Parse what follows the opening brace of an object: either the immediate
closing brace or a comma-separated field list; duplicate keys are collapsed
as `JSON.parse` collapses them. -/
def parseFields : Nat → List Char → Option (Json × List Char)
  | 0, _ => none
  | f + 1, cs =>
    match cs with
    | [] => none
    | c :: rest =>
      if c == rbrace then some (Json.obj [], rest)
      else if c == '"' then
        match parseStringBody rest with
        | none => none
        | some (k, r) =>
          match skipWs r with
          | colon :: r2 =>
            if colon == ':' then
              match parseVal f r2 with
              | none => none
              | some (v, r3) =>
                match parseFieldsTail f (skipWs r3) with
                | none => none
                | some (fs, r4) => some (Json.obj (dedupFields ((String.mk k, v) :: fs)), r4)
            else none
          | [] => none
      else none
termination_by structural fuel _ => fuel

/-- Parse the continuation of an object after one field: a closing brace or a
comma followed by further fields. -/
def parseFieldsTail : Nat → List Char → Option (List (String × Json) × List Char)
  | 0, _ => none
  | f + 1, cs =>
    match cs with
    | [] => none
    | c :: rest =>
      if c == rbrace then some ([], rest)
      else if c == ',' then
        match skipWs rest with
        | q :: r =>
          if q == '"' then
            match parseStringBody r with
            | none => none
            | some (k, r2) =>
              match skipWs r2 with
              | colon :: r3 =>
                if colon == ':' then
                  match parseVal f r3 with
                  | none => none
                  | some (v, r4) =>
                    match parseFieldsTail f (skipWs r4) with
                    | none => none
                    | some (fs, r5) => some ((String.mk k, v) :: fs, r5)
                else none
              | [] => none
          else none
        | [] => none
      else none
termination_by structural fuel _ => fuel

end

/-- Model of `JSON.parse`: the whole input must be one JSON value surrounded
by optional whitespace; `none` models a thrown `SyntaxError`. The fuel is
sufficient for every input: each recursive call consumes input. -/
def jsonParse (s : String) : Option Json :=
  match parseVal (2 * s.length + 2) s.data with
  | some (v, rest) => if (skipWs rest).isEmpty then some v else none
  | none => none

/-! A model of JSON.stringify on parse-produced values -/

/-- Escape one character of a string literal the way `JSON.stringify` does for
the characters that can occur here. -/
def escapeJsonChar (c : Char) : List Char :=
  if c == '"' then ['\\', '"']
  else if c == '\\' then ['\\', '\\']
  else if c == '\n' then ['\\', 'n']
  else if c == '\t' then ['\\', 't']
  else if c == '\r' then ['\\', 'r']
  else [c]

mutual

/-- Characters of `JSON.stringify` of a parse-produced value (no `undefined`
or function members can occur in such a value). -/
def stringifyJson : Json → List Char
  | .null => "null".data
  | .bool true => "true".data
  | .bool false => "false".data
  | .num n => (toString n).data
  | .str s => '"' :: (s.data.map escapeJsonChar).flatten ++ ['"']
  | .arr xs => '[' :: stringifyElems xs ++ [']']
  | .obj fs => lbrace :: stringifyFieldList fs ++ [rbrace]

/-- Comma-separated serialization of array elements. -/
def stringifyElems : List Json → List Char
  | [] => []
  | [x] => stringifyJson x
  | x :: y :: t => stringifyJson x ++ ',' :: stringifyElems (y :: t)

/-- Comma-separated serialization of object fields. -/
def stringifyFieldList : List (String × Json) → List Char
  | [] => []
  | [kv] => '"' :: (kv.1.data.map escapeJsonChar).flatten ++ '"' :: ':' :: stringifyJson kv.2
  | kv :: kv2 :: t =>
    '"' :: (kv.1.data.map escapeJsonChar).flatten ++ '"' :: ':' :: stringifyJson kv.2
      ++ ',' :: stringifyFieldList (kv2 :: t)

end

/-! The generation endpoints' buffer processing -/

/-- Classified outcomes of the post-stream part of the generation endpoints.
Constructors correspond to the distinct responses of the source:
`htmlErrorPage` = 500 "API returned an error page...", `invalidResponseFormat`
= 500 "Invalid response format from the API" (and the "No JSON found" path),
`invalidStructure` = 500 "Invalid question structure..." (shape validation),
`providerError` = the surrounding catch's 500 "Failed to generate question...",
`ok` = the 200 response carrying the mapped record. -/
inductive ApiResult where
  | htmlErrorPage
  | invalidResponseFormat
  | invalidStructure
  | providerError
  | ok (record : Json)

/-- The `difficultyMap` object literal of both endpoints, read at a key (own
properties only). -/
def difficultyMap (s : String) : Option String :=
  if s = "easy" then some "1"
  else if s = "medium" then some "2"
  else if s = "hard" then some "3"
  else none

/-- The expression `difficultyMap[data.difficulty.toLowerCase()] || '1'`
applied to a string difficulty `d`: the three mapped values are truthy, and a
missing key gives falsy `undefined`, so the or-else yields "1". -/
def mapDifficulty (d : String) : String := (difficultyMap (jsToLower d)).getD "1"

/-- Test for `Array.isArray`. -/
def isArrayOpt : Option Json → Bool
  | some (.arr _) => true
  | _ => false

/-- Element list of an array value (only read behind an `Array.isArray`
guard in the source). -/
def arrElems : Option Json → List Json
  | some (.arr xs) => xs
  | _ => []

/-- JS `Array.prototype.includes` on a parsed array, with a possibly-undefined
argument; `includes(undefined)` is false because a parsed array contains no
`undefined` element. -/
def jsIncludes (xs : List Json) (v : Option Json) : Bool :=
  match v with
  | some a => xs.any (fun x => jsEq x a)
  | none => false

/-- Shape validation of `auto-generate-question.ts` (the negation of its
rejection condition): `!data.question || !Array.isArray(data.options) ||
data.options.length < 2 || !data.answer || !data.options.includes(data.answer)`. -/
def validQuestionShape (data : Json) : Bool :=
  truthy (jsGet data "question") &&
  isArrayOpt (jsGet data "options") &&
  decide (2 ≤ (arrElems (jsGet data "options")).length) &&
  truthy (jsGet data "answer") &&
  jsIncludes (arrElems (jsGet data "options")) (jsGet data "answer")

/-- Fields of an object value. -/
def jsonFields : Json → List (String × Json)
  | .obj fs => fs
  | _ => []

/-- Object-level tail of the `.ts` handler, applied to the value produced by
`JSON.parse`: reject on shape validation failure; then evaluate
`data.difficulty.toLowerCase()` — a `TypeError` when the difficulty is absent
or not a string, which the surrounding catch turns into the provider error —
and on success return `{...data, difficulty: mapped, options:
JSON.stringify(data.options)}`. -/
def processParsedOptions (data : Json) : ApiResult :=
  if !validQuestionShape data then .invalidStructure
  else
    match jsGet data "difficulty" with
    | some (.str d) =>
      .ok (Json.obj
        (overrideField
          (overrideField (jsonFields data) "difficulty" (.str (mapDifficulty d)))
          "options"
          (.str (String.mk (stringifyJson (Json.arr (arrElems (jsGet data "options"))))))))
    | _ => .providerError

/-- Truthiness of `c.is_correct` for one element of the choices array; a
`TypeError` when the element is `null` (no other element shape of a parsed
array can make member access throw). -/
def jsIsCorrect (c : Json) : Except Unit Bool :=
  match jsMember (some c) "is_correct" with
  | .error _ => .error ()
  | .ok v => .ok (truthy v)

/-- The call `data.choices.some(c => c.is_correct)`: left-to-right, stopping at
the first truthy flag; propagates a thrown `TypeError`. -/
def jsSomeCorrect : List Json → Except Unit Bool
  | [] => .ok false
  | c :: t => do
    let b ← jsIsCorrect c
    if b then pure true else jsSomeCorrect t

/-- The call `data.choices.filter(c => c.is_correct).length`: evaluates the
flag of every element; propagates a thrown `TypeError`. -/
def jsCountCorrect : List Json → Except Unit Nat
  | [] => .ok 0
  | c :: t => do
    let b ← jsIsCorrect c
    let n ← jsCountCorrect t
    pure (if b then n + 1 else n)

/-- Shape validation of the app-route `POST` variant, with JS short-circuit
order: `!data.question || !Array.isArray(data.choices) || data.choices.length
< 2 || !data.choices.some(c => c.is_correct) ||
data.choices.filter(c => c.is_correct).length !== 1`; `ok true` = valid,
`ok false` = rejected with the structure error, `error` = a thrown
`TypeError` reaching the surrounding catch. -/
def validChoicesShapeE (data : Json) : Except Unit Bool :=
  if !truthy (jsGet data "question") then .ok false
  else if !isArrayOpt (jsGet data "choices") then .ok false
  else
    let cs := arrElems (jsGet data "choices")
    if cs.length < 2 then .ok false
    else do
      let s ← jsSomeCorrect cs
      if !s then pure false
      else do
        let n ← jsCountCorrect cs
        pure (n == 1)

/-- Build the `POST` variant's `mappedData` literal `{question, choices,
explanation, difficulty}`; a property whose value is `undefined` is omitted by
the JSON serialization of the response. -/
def mappedChoicesFields (data : Json) (d : String) : List (String × Json) :=
  (match jsGet data "question" with | some q => [("question", q)] | none => []) ++
  (match jsGet data "choices" with | some c => [("choices", c)] | none => []) ++
  (match jsGet data "explanation" with | some e => [("explanation", e)] | none => []) ++
  [("difficulty", Json.str (mapDifficulty d))]

/-- Object-level tail of the app-route `POST` variant: choices-shape
validation (which can itself throw on a `null` element), then the same
difficulty expression, then the `mappedData` literal. -/
def processParsedChoices (data : Json) : ApiResult :=
  match validChoicesShapeE data with
  | .error _ => .providerError
  | .ok false => .invalidStructure
  | .ok true =>
    match jsGet data "difficulty" with
    | some (.str d) => .ok (Json.obj (mappedChoicesFields data d))
    | _ => .providerError

/-- Post-stream processing of the accumulated buffer in
`auto-generate-question.ts`: HTML-marker check, non-greedy brace extraction,
`JSON.parse` (whose `SyntaxError` is caught only by the surrounding provider
catch in this variant), then validation and mapping. -/
def handlerStep (fullResponse : String) : ApiResult :=
  if containsSub fullResponse "<!DOCTYPE" || containsSub fullResponse "<html" then
    .htmlErrorPage
  else
    match extractJson fullResponse.data with
    | none => .invalidResponseFormat
    | some jchars =>
      match jsonParse (String.mk jchars) with
      | none => .providerError
      | some data => processParsedOptions data

/-- Post-stream processing of the accumulated buffer in the app-route `POST`
variant; identical front end, but a `JSON.parse` failure is caught by the
dedicated parse try/catch and reported as the invalid-response-format error. -/
def handlerChoicesStep (fullResponse : String) : ApiResult :=
  if containsSub fullResponse "<!DOCTYPE" || containsSub fullResponse "<html" then
    .htmlErrorPage
  else
    match extractJson fullResponse.data with
    | none => .invalidResponseFormat
    | some jchars =>
      match jsonParse (String.mk jchars) with
      | none => .invalidResponseFormat
      | some data => processParsedChoices data

/-- Difficulty field of a success record, for stating claims about the record
the endpoint returns. -/
def resultDifficulty : ApiResult → Option Json
  | .ok r => jsGet r "difficulty"
  | _ => none

/-- Test for a success outcome. -/
def isOkResult : ApiResult → Bool
  | .ok _ => true
  | _ => false

/-- Test whether a possibly-absent value is a JSON string. -/
def isStrOpt : Option Json → Bool
  | some (.str _) => true
  | _ => false

/-- Test for the spec's "difficulty is an integer in 1..3" reading of a
record field. -/
def isIntDifficulty : Option Json → Bool
  | some (.num n) => n == 1 || n == 2 || n == 3
  | _ => false

/-! The StudentTest component: assembly, navigation, scoring -/

/-- Choice rows as shaped by `fetchQuestions` (the `Choice` interface of the
`StudentTest` component). -/
structure Choice where
  id : String
  question_id : String
  choice : String
  is_correct : Bool
deriving DecidableEq

/-- Questions with their attached choice lists (the `Question` interface of
the `StudentTest` component). -/
structure Question where
  id : String
  content : String
  explanation : String
  difficulty : Int
  choices : List Choice
deriving DecidableEq

/-- The `fetchQuestions` eligibility test: `q.choices.length > 0 &&
q.choices.some(c => c.is_correct)`. -/
def isEligible (q : Question) : Bool :=
  decide (0 < q.choices.length) && q.choices.any (fun c => c.is_correct)

/-- The `validQuestions` filter of `fetchQuestions`. -/
def validQuestions (qs : List Question) : List Question := qs.filter isEligible

/-- The sampling step `shuffled.slice(0, 5)`; the shuffle itself (`sort` with
a random comparator) is modelled as an arbitrary permutation of the filtered
list, quantified in the theorems. -/
def selectedSample (shuffled : List Question) : List Question := shuffled.take 5

/-- The lookup `question.choices.find(choice => choice.is_correct)` used by
`handleSubmit`. -/
def findCorrectChoice (q : Question) : Option Choice :=
  q.choices.find? (fun c => c.is_correct)

/-- The comparison `selectedAnswers[question.id] === correctChoice?.choice` of
`handleSubmit`: both sides may be `undefined` (an unanswered question, a
question with no correct choice), and `undefined === undefined` is true. -/
def isAnswerCorrect (selected : Option String) (q : Question) : Bool :=
  match selected, findCorrectChoice q with
  | some a, some c => a == c.choice
  | none, none => true
  | _, _ => false

/-- The score computed by `handleSubmit`: the per-question `is_correct`
results, filtered to the true ones and counted
(`assessmentResults.filter(result => result.is_correct).length`). -/
def computeScore (answers : String → Option String) (qs : List Question) : Nat :=
  ((qs.map (fun q => isAnswerCorrect (answers q.id) q)).filter (fun b => b)).length

/-- The spec's reading of one question being scored correct: the selected
answer is exactly text-equal to the question's correct-choice text, and an
unanswered question counts incorrect. Written from the spec's words, to be
compared with `isAnswerCorrect`/`computeScore` above. -/
def scoreSpecMatch (answers : String → Option String) (q : Question) : Bool :=
  match findCorrectChoice q with
  | some c => answers q.id == some c.choice
  | none => false

/-- In-memory view state of the test page: `currentQuestionIndex` and the
`selectedAnswers` record (a map from question id to selected choice text). -/
structure TestState where
  currentQuestionIndex : Nat
  selectedAnswers : String → Option String

/-- User events the navigation handlers react to. -/
inductive TestEvent where
  | next
  | previous
  | selectAnswer (questionId : String) (answer : String)

/-- One event step over the test state for a quiz of `n` questions:
`handleNextQuestion` (guard `currentQuestionIndex < questions.length - 1`),
`handlePreviousQuestion` (guard `currentQuestionIndex > 0`), and
`handleAnswerSelect` (spread of the previous record with one key overwritten;
the index is untouched). With `n = 0` the JS guard `index < -1` is false and
so is the model's `index < 0`. -/
def stepTest (n : Nat) (s : TestState) : TestEvent → TestState
  | .next =>
    if s.currentQuestionIndex < n - 1 then
      { s with currentQuestionIndex := s.currentQuestionIndex + 1 }
    else s
  | .previous =>
    if 0 < s.currentQuestionIndex then
      { s with currentQuestionIndex := s.currentQuestionIndex - 1 }
    else s
  | .selectAnswer qid ans =>
    { s with selectedAnswers := fun k => if k == qid then some ans else s.selectedAnswers k }

/-- Initial state of the component: index 0, empty answers record. -/
def initTestState : TestState :=
  { currentQuestionIndex := 0, selectedAnswers := fun _ => none }

/-- Fold a sequence of events from the initial state. -/
def runTest (n : Nat) (events : List TestEvent) : TestState :=
  events.foldl (stepTest n) initTestState

/-! Claim-level predicates and concrete inputs used by the theorems -/

/-- Test whether the buffer holds a brace-delimited substring: a left brace
with a right brace somewhere after it — exactly the condition under which the
non-greedy pattern has a match. -/
def hasBracePair : List Char → Bool
  | [] => false
  | c :: t => (c == lbrace && t.any (fun d => d == rbrace)) || hasBracePair t

/-- Success condition of the options variant as the claim words it (non-empty
question string, at least two options, an answer string equal to one of the
options). Written from the claim's words, to be compared with
`validQuestionShape` and the endpoint's observable outcome. -/
def specOptionsShapeOk (data : Json) : Bool :=
  (match jsGet data "question" with
   | some (.str s) => !s.isEmpty
   | _ => false) &&
  (match jsGet data "options" with
   | some (.arr opts) =>
     decide (2 ≤ opts.length) &&
       (match jsGet data "answer" with
        | some (.str a) => opts.any (fun o => jsEq o (.str a))
        | _ => false)
   | _ => false)

/-- Parsed provider object that passes shape validation and has difficulty
label "HARD" (mixed case). -/
def exHard : Json :=
  Json.obj
    [("question", Json.str "Q"),
     ("options", Json.arr [Json.str "a", Json.str "b"]),
     ("answer", Json.str "a"),
     ("difficulty", Json.str "HARD")]

/-- Parsed provider object that passes shape validation but carries no
difficulty field at all. -/
def exMissingDiff : Json :=
  Json.obj
    [("question", Json.str "Q"),
     ("options", Json.arr [Json.str "a", Json.str "b"]),
     ("answer", Json.str "a")]

/-- Accumulated response buffer: a flat, well-formed provider object with
difficulty "easy". -/
def bufEasy : String :=
  "\x7b\"question\": \"Q1\", \"options\": [\"a\", \"b\"], \"answer\": \"a\", \"difficulty\": \"easy\"\x7d"

/-- Accumulated response buffer that contains an HTML tag marker and also a
complete, valid JSON object. -/
def bufHtmlJson : String :=
  "<html><body>err</body></html> \x7b\"question\": \"Q\", \"options\": [\"a\", \"b\"], \"answer\": \"a\", \"difficulty\": \"easy\"\x7d"

/-- Accumulated response buffer with no brace-delimited substring. -/
def bufNoJson : String := "I cannot produce a question right now."

/-- Accumulated response buffer that is one well-formed JSON object containing
a nested inner object. -/
def bufNested : String :=
  "\x7b\"question\": \"Q\", \"meta\": \x7b\"x\": 1\x7d, \"answer\": \"a\"\x7d"

/-- The strict prefix of `bufNested` at which the non-greedy pattern stops:
everything through the first right brace, which closes the inner object. -/
def truncatedNested : List Char :=
  "\x7b\"question\": \"Q\", \"meta\": \x7b\"x\": 1\x7d".data

/-- A correct choice for the concrete quiz examples. -/
def cGood1 : Choice :=
  { id := "c1", question_id := "q1", choice := "4", is_correct := true }

/-- An incorrect choice for the concrete quiz examples. -/
def cGood2 : Choice :=
  { id := "c2", question_id := "q1", choice := "5", is_correct := false }

/-- A well-formed question: two choices, exactly one correct. -/
def qGood : Question :=
  { id := "q1", content := "2+2?", explanation := "e", difficulty := 1,
    choices := [cGood1, cGood2] }

/-- A question with two choices both flagged correct — ill-formed under the
claimed invariant. -/
def qTwoCorrect : Question :=
  { id := "q2", content := "pick", explanation := "e", difficulty := 1,
    choices :=
      [{ id := "c3", question_id := "q2", choice := "x", is_correct := true },
       { id := "c4", question_id := "q2", choice := "y", is_correct := true }] }

/-- Answer map selecting the correct choice text of `qGood`. -/
def answersAllCorrect : String → Option String :=
  fun k => if k == "q1" then some "4" else none

/-! Helper lemmas -/

lemma upToRBrace_eq_none {cs : List Char} (h : cs.any (fun d => d == rbrace) = false) :
    upToRBrace cs = none := by
  induction cs with
  | nil => rfl
  | cons c rest ih =>
    simp only [List.any_cons, Bool.or_eq_false_iff] at h
    simp [upToRBrace, h.1, ih h.2]

lemma extractJson_eq_none {cs : List Char} (h : hasBracePair cs = false) :
    extractJson cs = none := by
  induction cs with
  | nil => rfl
  | cons c rest ih =>
    simp only [hasBracePair, Bool.or_eq_false_iff] at h
    by_cases hc : (c == lbrace) = true
    · have hany : rest.any (fun d => d == rbrace) = false := by
        rcases h with ⟨h1, _⟩
        simpa [hc] using h1
      simp [extractJson, hc, upToRBrace_eq_none hany]
    · simp only [Bool.not_eq_true] at hc
      simp [extractJson, hc, ih h.2]

/-! Claim theorems -/

/-- C5: every accumulated buffer that contains one of the HTML markers the
endpoints test for (the doctype marker or the html tag) is classified as the
upstream error-page failure by both endpoint variants, whatever else — a valid
JSON object included — the buffer contains; in the model the outcome is the
HTML classification unconditionally on the rest of the buffer, so no JSON
extraction or parsing influences it. -/
theorem c5_html_classified_first (buf : String)
    (h : containsSub buf "<!DOCTYPE" = true ∨ containsSub buf "<html" = true) :
    handlerStep buf = ApiResult.htmlErrorPage ∧
      handlerChoicesStep buf = ApiResult.htmlErrorPage := by
  unfold handlerStep handlerChoicesStep
  rcases h with h | h <;> rw [h] <;> simp

/-- C5 witness: a buffer holding an HTML tag and also a complete valid JSON
object is still classified as the error page by both variants. -/
theorem c5_witness :
    handlerStep bufHtmlJson = ApiResult.htmlErrorPage ∧
      handlerChoicesStep bufHtmlJson = ApiResult.htmlErrorPage :=
  c5_html_classified_first bufHtmlJson (Or.inr rfl)

/-- C6: a buffer with no brace-delimited substring makes the non-greedy
pattern fail, and (when the HTML check did not already fire) both endpoint
variants return the classified invalid-response-format ("No JSON found")
error; in every case the options variant resolves to one of its two
classified errors — the model is a total function, so no uncaught exception
exists. -/
theorem c6_no_json_classified (buf : String) (h : hasBracePair buf.data = false) :
    (containsSub buf "<!DOCTYPE" = false → containsSub buf "<html" = false →
      handlerStep buf = ApiResult.invalidResponseFormat ∧
        handlerChoicesStep buf = ApiResult.invalidResponseFormat) ∧
    (handlerStep buf = ApiResult.invalidResponseFormat ∨
      handlerStep buf = ApiResult.htmlErrorPage) := by
  have hex : extractJson buf.data = none := extractJson_eq_none h
  constructor
  · intro h1 h2
    constructor <;> simp [handlerStep, handlerChoicesStep, h1, h2, hex]
  · by_cases hh : (containsSub buf "<!DOCTYPE" || containsSub buf "<html") = true
    · right
      simp [handlerStep, hh]
    · left
      simp only [Bool.or_eq_true, not_or, Bool.not_eq_true] at hh
      simp [handlerStep, hh.1, hh.2, hex]

/-- C6 witness: a plain refusal sentence with no braces yields the
invalid-format classification on both variants. -/
theorem c6_witness :
    handlerStep bufNoJson = ApiResult.invalidResponseFormat ∧
      handlerChoicesStep bufNoJson = ApiResult.invalidResponseFormat :=
  (c6_no_json_classified bufNoJson rfl).1 rfl rfl

/-- C9: for a quiz of `n ≥ 1` questions, every sequence of next / previous /
answer-selection events starting from the initial state keeps the current
index inside `[0, n)`; next increments exactly when the index is below
`n - 1` and otherwise does nothing, previous decrements exactly when the
index is positive and otherwise does nothing, and answer selection rewrites
only the selected-answers map entry of that question (overwriting any prior
value) while leaving the index and all other entries unchanged. -/
theorem c9_navigation_invariant (n : Nat) (events : List TestEvent) (hn : 1 ≤ n) :
    (runTest n events).currentQuestionIndex < n ∧
    (∀ s : TestState, s.currentQuestionIndex < n - 1 →
      (stepTest n s .next).currentQuestionIndex = s.currentQuestionIndex + 1) ∧
    (∀ s : TestState, ¬ s.currentQuestionIndex < n - 1 → stepTest n s .next = s) ∧
    (∀ s : TestState, 0 < s.currentQuestionIndex →
      (stepTest n s .previous).currentQuestionIndex = s.currentQuestionIndex - 1) ∧
    (∀ s : TestState, s.currentQuestionIndex = 0 → stepTest n s .previous = s) ∧
    (∀ (s : TestState) (qid ans : String),
      (stepTest n s (.selectAnswer qid ans)).currentQuestionIndex =
        s.currentQuestionIndex ∧
      (stepTest n s (.selectAnswer qid ans)).selectedAnswers qid = some ans ∧
      ∀ k, k ≠ qid →
        (stepTest n s (.selectAnswer qid ans)).selectedAnswers k =
          s.selectedAnswers k) := by
  have hstep : ∀ (s : TestState) (e : TestEvent),
      s.currentQuestionIndex < n → (stepTest n s e).currentQuestionIndex < n := by
    intro s e hs
    cases e with
    | next =>
      simp only [stepTest]
      split
      next hidx =>
        show s.currentQuestionIndex + 1 < n
        omega
      next hidx => exact hs
    | previous =>
      simp only [stepTest]
      split
      next hidx =>
        show s.currentQuestionIndex - 1 < n
        omega
      next hidx => exact hs
    | selectAnswer qid ans => exact hs
  refine ⟨?_, ?_, ?_, ?_, ?_, ?_⟩
  · have hrun : ∀ (evs : List TestEvent) (s : TestState),
        s.currentQuestionIndex < n →
          (evs.foldl (stepTest n) s).currentQuestionIndex < n := by
      intro evs
      induction evs with
      | nil => intro s hs; exact hs
      | cons e t ih => intro s hs; exact ih _ (hstep s e hs)
    exact hrun events initTestState (by simpa [initTestState] using hn)
  · intro s hs
    simp [stepTest, hs]
  · intro s hs
    simp [stepTest, hs]
  · intro s hs
    simp [stepTest, hs]
  · intro s hs
    simp [stepTest, hs]
  · intro s qid ans
    refine ⟨rfl, ?_, ?_⟩
    · simp [stepTest]
    · intro k hk
      simp [stepTest, hk]

/-- C9 witness: one-question quiz, a next (blocked), a selection and a
previous (blocked) keep the index at 0 and record the answer. -/
theorem c9_witness :
    (runTest 1 [TestEvent.next, TestEvent.selectAnswer "q1" "4",
      TestEvent.previous]).currentQuestionIndex < 1 :=
  (c9_navigation_invariant 1
    [TestEvent.next, TestEvent.selectAnswer "q1" "4", TestEvent.previous]
    (by decide)).1

/-- C2 counterexample: a question with two choices both flagged correct
survives the `fetchQuestions` filter and lands in the assembled sample, so
"exactly one correct choice" is not what assembly enforces. -/
theorem c2_counterexample :
    validQuestions [qTwoCorrect] = [qTwoCorrect] ∧
      selectedSample (validQuestions [qTwoCorrect]) = [qTwoCorrect] ∧
      (qTwoCorrect.choices.filter (fun c => c.is_correct)).length = 2 := by
  refine ⟨?_, ?_, ?_⟩ <;> decide

/-- C2 amended: a question is kept by the assembly filter exactly when it has
at least one choice and at least one choice flagged correct; having exactly
one correct choice is not checked (the nearby `hasCorrectChoice` check only
logs). Questions with no choice or no correct choice are the ones discarded
before sampling. -/
theorem c2_amended_filter (qs : List Question) (q : Question) :
    q ∈ validQuestions qs ↔
      q ∈ qs ∧ 0 < q.choices.length ∧ q.choices.any (fun c => c.is_correct) = true := by
  simp [validQuestions, List.mem_filter, isEligible, and_assoc]

/-- C4: whatever permutation the random-comparator sort produces, taking the
first five of it yields a sample of size `min 5 (eligible count)`, made of
eligible questions only, and with no duplicates whenever the eligible list
itself has none. -/
theorem c4_sample_shape (qs shuffled : List Question)
    (hperm : shuffled.Perm (validQuestions qs))
    (_hne : validQuestions qs ≠ []) :
    (selectedSample shuffled).length = min 5 (validQuestions qs).length ∧
    (∀ q ∈ selectedSample shuffled, q ∈ validQuestions qs) ∧
    ((validQuestions qs).Nodup → (selectedSample shuffled).Nodup) := by
  refine ⟨?_, ?_, ?_⟩
  · simp [selectedSample, List.length_take, hperm.length_eq]
  · intro q hq
    exact hperm.subset (List.take_subset 5 shuffled hq)
  · intro hnd
    exact ((hperm.nodup_iff).mpr hnd).sublist (List.take_sublist 5 shuffled)

/-- C4 witness: a single eligible question permuted identically gives the
sample of size `min 5 1 = 1` containing it. -/
theorem c4_witness :
    (selectedSample [qGood]).length = min 5 (validQuestions [qGood]).length :=
  (c4_sample_shape [qGood] [qGood] (by decide) (by decide)).1

lemma lookup_map_override (k : String) (v : Json) :
    ∀ fs : List (String × Json), fs.any (fun p => p.1 == k) = true →
      (fs.map (fun p => if p.1 == k then (k, v) else p)).lookup k = some v := by
  intro fs
  induction fs with
  | nil => intro h; simp at h
  | cons p t ih =>
    intro h
    simp only [List.map_cons]
    by_cases hp : (p.1 == k) = true
    · rw [if_pos hp]
      simp [List.lookup]
    · rw [if_neg hp]
      have hne : p.1 ≠ k := by simpa using hp
      have hkp : (k == p.1) = false := beq_eq_false_iff_ne.mpr (Ne.symm hne)
      simp only [List.any_cons, Bool.or_eq_true] at h
      rcases h with h | h
      · exact absurd h hp
      · simp only [List.lookup, hkp]
        exact ih h

lemma lookup_append_new (k : String) (v : Json) :
    ∀ fs : List (String × Json), fs.any (fun p => p.1 == k) = false →
      (fs ++ [(k, v)]).lookup k = some v := by
  intro fs
  induction fs with
  | nil => intro _; simp [List.lookup]
  | cons p t ih =>
    intro h
    simp only [List.any_cons, Bool.or_eq_false_iff] at h
    have hne : p.1 ≠ k := by simpa using h.1
    have hkp : (k == p.1) = false := beq_eq_false_iff_ne.mpr (Ne.symm hne)
    simp [List.lookup, hkp, ih h.2]

lemma lookup_overrideField_self (fs : List (String × Json)) (k : String) (v : Json) :
    (overrideField fs k v).lookup k = some v := by
  unfold overrideField
  split
  next h => exact lookup_map_override k v fs h
  next h =>
    refine lookup_append_new k v fs ?_
    revert h
    cases fs.any (fun p => p.1 == k) <;> simp

lemma lookup_map_override_ne (k k' : String) (v : Json) (hne : k ≠ k') :
    ∀ fs : List (String × Json),
      (fs.map (fun p => if p.1 == k then (k, v) else p)).lookup k' = fs.lookup k' := by
  intro fs
  induction fs with
  | nil => rfl
  | cons p t ih =>
    simp only [List.map_cons]
    by_cases hp : (p.1 == k) = true
    · have hpk : p.1 = k := by simpa using hp
      have h1 : (k' == k) = false := beq_eq_false_iff_ne.mpr (Ne.symm hne)
      rw [if_pos hp]
      simp only [List.lookup, hpk, h1]
      exact ih
    · rw [if_neg hp]
      cases hq : (k' == p.1)
      · simp only [List.lookup, hq]
        exact ih
      · simp only [List.lookup, hq]

lemma lookup_append_ne (k k' : String) (v : Json) (hne : k ≠ k') :
    ∀ fs : List (String × Json), (fs ++ [(k, v)]).lookup k' = fs.lookup k' := by
  intro fs
  induction fs with
  | nil =>
    have h1 : (k' == k) = false := beq_eq_false_iff_ne.mpr (Ne.symm hne)
    simp [List.lookup, h1]
  | cons p t ih =>
    cases hq : (k' == p.1) <;> simp [List.lookup, hq, ih]

lemma lookup_overrideField_ne (fs : List (String × Json)) (k k' : String) (v : Json)
    (hne : k ≠ k') :
    (overrideField fs k v).lookup k' = fs.lookup k' := by
  unfold overrideField
  split
  next => exact lookup_map_override_ne k k' v hne fs
  next => exact lookup_append_ne k k' v hne fs

lemma mapDifficulty_mem (d : String) :
    mapDifficulty d = "1" ∨ mapDifficulty d = "2" ∨ mapDifficulty d = "3" := by
  unfold mapDifficulty difficultyMap
  split_ifs <;> simp

/-- C1 counterexample: a buffer holding a shape-valid object labelled "easy"
makes the endpoint return a record whose difficulty field is the string "1",
not an integer — the endpoint emits the numeric code as a string value. -/
theorem c1_counterexample :
    resultDifficulty (handlerStep bufEasy) = some (Json.str "1") ∧
      isIntDifficulty (resultDifficulty (handlerStep bufEasy)) = false :=
  ⟨rfl, rfl⟩

/-- C1 amended: for every parsed object that passes shape validation and
whose difficulty field is a string, the options endpoint returns a record
whose difficulty is the string "1", "2" or "3": the labels easy / medium /
hard map case-insensitively to "1" / "2" / "3" and any other label maps to
"1". (When the difficulty field is absent or not a string the endpoint does
not return a record at all — see the C10 theorem.) -/
theorem c1_amended_difficulty (data : Json) (d : String)
    (hv : validQuestionShape data = true)
    (hd : jsGet data "difficulty" = some (Json.str d)) :
    resultDifficulty (processParsedOptions data) = some (Json.str (mapDifficulty d)) ∧
    (mapDifficulty d = "1" ∨ mapDifficulty d = "2" ∨ mapDifficulty d = "3") ∧
    (jsToLower d = "easy" → mapDifficulty d = "1") ∧
    (jsToLower d = "medium" → mapDifficulty d = "2") ∧
    (jsToLower d = "hard" → mapDifficulty d = "3") ∧
    (jsToLower d ≠ "easy" → jsToLower d ≠ "medium" → jsToLower d ≠ "hard" →
      mapDifficulty d = "1") := by
  refine ⟨?_, mapDifficulty_mem d, ?_, ?_, ?_, ?_⟩
  · have hrec : processParsedOptions data =
        ApiResult.ok (Json.obj (overrideField
          (overrideField (jsonFields data) "difficulty" (Json.str (mapDifficulty d)))
          "options"
          (Json.str (String.mk (stringifyJson (Json.arr (arrElems (jsGet data "options")))))))) := by
      unfold processParsedOptions
      rw [hv, hd]
      rfl
    rw [hrec]
    simp only [resultDifficulty, jsGet]
    rw [lookup_overrideField_ne _ "options" "difficulty" _ (by decide),
      lookup_overrideField_self]
  · intro h; simp [mapDifficulty, difficultyMap, h]
  · intro h; simp [mapDifficulty, difficultyMap, h]
  · intro h; simp [mapDifficulty, difficultyMap, h]
  · intro h1 h2 h3; simp [mapDifficulty, difficultyMap, h1, h2, h3]

/-- C10: shape validation never looks at the difficulty field, and when that
field is absent or not a string the difficulty-mapping expression
`data.difficulty.toLowerCase()` throws; the surrounding provider catch turns
this into the generic provider-error response, not a record with difficulty
defaulted to 1 — for both endpoint variants. -/
theorem c10_difficulty_exception (data : Json)
    (hd : isStrOpt (jsGet data "difficulty") = false) :
    (validQuestionShape data = true →
      processParsedOptions data = ApiResult.providerError) ∧
    (validChoicesShapeE data = Except.ok true →
      processParsedChoices data = ApiResult.providerError) := by
  constructor
  · intro hv
    cases hj : jsGet data "difficulty" with
    | none => simp [processParsedOptions, hv, hj]
    | some j =>
      cases j with
      | str s =>
        rw [hj] at hd
        simp [isStrOpt] at hd
      | null => simp [processParsedOptions, hv, hj]
      | bool b => simp [processParsedOptions, hv, hj]
      | num n => simp [processParsedOptions, hv, hj]
      | arr xs => simp [processParsedOptions, hv, hj]
      | obj fs => simp [processParsedOptions, hv, hj]
  · intro hv
    cases hj : jsGet data "difficulty" with
    | none => simp [processParsedChoices, hv, hj]
    | some j =>
      cases j with
      | str s =>
        rw [hj] at hd
        simp [isStrOpt] at hd
      | null => simp [processParsedChoices, hv, hj]
      | bool b => simp [processParsedChoices, hv, hj]
      | num n => simp [processParsedChoices, hv, hj]
      | arr xs => simp [processParsedChoices, hv, hj]
      | obj fs => simp [processParsedChoices, hv, hj]

/-- C10 witness: the shape-valid object with no difficulty field makes the
options endpoint report the generic provider error. -/
theorem c10_witness :
    processParsedOptions exMissingDiff = ApiResult.providerError :=
  (c10_difficulty_exception exMissingDiff rfl).1 rfl

lemma computeScore_eq_countP (answers : String → Option String) (qs : List Question) :
    computeScore answers qs = qs.countP (fun q => isAnswerCorrect (answers q.id) q) := by
  induction qs with
  | nil => rfl
  | cons q t ih =>
    simp only [computeScore, List.map_cons, List.filter_cons]
    simp only [computeScore] at ih
    cases h : isAnswerCorrect (answers q.id) q <;> simp [h, List.countP_cons, ih]

lemma findCorrectChoice_isSome_of_one {q : Question}
    (h : (q.choices.filter (fun c => c.is_correct)).length = 1) :
    ∃ c, findCorrectChoice q = some c ∧ c.is_correct = true := by
  have hne : q.choices.filter (fun c => c.is_correct) ≠ [] := by
    intro he
    rw [he] at h
    simp at h
  obtain ⟨c, hc⟩ := List.exists_mem_of_ne_nil _ hne
  have hmem : ∃ x ∈ q.choices, x.is_correct = true :=
    ⟨c, (List.mem_filter.mp hc).1, (List.mem_filter.mp hc).2⟩
  unfold findCorrectChoice
  cases hf : q.choices.find? (fun c => c.is_correct) with
  | some c0 =>
    exact ⟨c0, rfl, List.find?_some hf⟩
  | none =>
    rw [List.find?_eq_none] at hf
    obtain ⟨x, hx, hp⟩ := hmem
    exact absurd hp (by simpa using hf x hx)

/-- C3: when every question of the assembled set has exactly one correct
choice, the submitted score is the count of questions whose selected answer
is text-equal to that question's correct-choice text; in particular it is `N`
when every selected answer equals the correct-choice text, and `0` for the
empty answer mapping. -/
theorem c3_scoring (qs : List Question) (answers : String → Option String)
    (hone : ∀ q ∈ qs, (q.choices.filter (fun c => c.is_correct)).length = 1) :
    computeScore answers qs = qs.countP (scoreSpecMatch answers) ∧
    ((∀ q ∈ qs, ∃ c, findCorrectChoice q = some c ∧ answers q.id = some c.choice) →
      computeScore answers qs = qs.length) ∧
    computeScore (fun _ => none) qs = 0 := by
  refine ⟨?_, ?_, ?_⟩
  · rw [computeScore_eq_countP]
    refine List.countP_congr ?_
    intro q hq
    obtain ⟨c, hc, _⟩ := findCorrectChoice_isSome_of_one (hone q hq)
    unfold isAnswerCorrect scoreSpecMatch
    rw [hc]
    cases answers q.id <;> simp
  · intro hall
    rw [computeScore_eq_countP]
    rw [List.countP_eq_length]
    intro q hq
    obtain ⟨c, hc, ha⟩ := hall q hq
    unfold isAnswerCorrect
    rw [hc, ha]
    simp
  · rw [computeScore_eq_countP]
    rw [List.countP_eq_zero]
    intro q hq
    obtain ⟨c, hc, _⟩ := findCorrectChoice_isSome_of_one (hone q hq)
    unfold isAnswerCorrect
    rw [hc]
    simp

/-- C3 witness: one well-formed question answered with its correct-choice
text scores 1 of 1. -/
theorem c3_witness : computeScore answersAllCorrect [qGood] = 1 := by
  have h := (c3_scoring [qGood] answersAllCorrect (by decide)).2.1
  have hall : ∀ q ∈ [qGood],
      ∃ c, findCorrectChoice q = some c ∧ answersAllCorrect q.id = some c.choice := by
    intro q hq
    have hq1 : q = qGood := by simpa using hq
    subst hq1
    exact ⟨cGood1, rfl, rfl⟩
  simpa using h hall

/-- C1 amended witness: the mixed-case label "HARD" passes shape validation
and comes back as the string "3". -/
theorem c1_amended_witness :
    resultDifficulty (processParsedOptions exHard) = some (Json.str (mapDifficulty "HARD")) ∧
      mapDifficulty "HARD" = "3" :=
  ⟨(c1_amended_difficulty exHard "HARD" rfl rfl).1,
   (c1_amended_difficulty exHard "HARD" rfl rfl).2.2.2.2.1 rfl⟩

lemma isArrayOpt_iff (v : Option Json) : isArrayOpt v = true ↔ ∃ xs, v = some (Json.arr xs) := by
  cases v with
  | none => simp [isArrayOpt]
  | some j => cases j <;> simp [isArrayOpt]

lemma validQuestionShape_iff (data : Json) :
    validQuestionShape data = true ↔
      truthy (jsGet data "question") = true ∧
      ∃ opts, jsGet data "options" = some (Json.arr opts) ∧ 2 ≤ opts.length ∧
        ∃ a, jsGet data "answer" = some a ∧ truthy (some a) = true ∧
          opts.any (fun o => jsEq o a) = true := by
  unfold validQuestionShape
  constructor
  · intro h
    simp only [Bool.and_eq_true, decide_eq_true_eq] at h
    obtain ⟨⟨⟨⟨h1, h2⟩, h3⟩, h4⟩, h5⟩ := h
    obtain ⟨opts, ho⟩ := (isArrayOpt_iff _).mp h2
    rw [ho] at h3 h5
    cases ha : jsGet data "answer" with
    | none =>
      rw [ha] at h4
      simp [truthy] at h4
    | some a =>
      rw [ha] at h4 h5
      exact ⟨h1, opts, ho, by simpa [arrElems] using h3, a, rfl, h4,
        by simpa [jsIncludes, arrElems] using h5⟩
  · rintro ⟨h1, opts, ho, hlen, a, ha, hta, hincl⟩
    simp [h1, ho, ha, isArrayOpt, arrElems, jsIncludes, hta, hincl, hlen]

/-- C7 counterexample: an object satisfying every condition the claim states
for the options variant (non-empty question string, two options, answer equal
to one of them) on which the endpoint nevertheless does not return a success
record — its difficulty field is absent, so the difficulty expression throws
after validation and the provider catch answers instead. -/
theorem c7_counterexample :
    specOptionsShapeOk exMissingDiff = true ∧
      isOkResult (processParsedOptions exMissingDiff) = false :=
  ⟨rfl, rfl⟩

/-- C7 amended: the options endpoint returns a success record iff the parsed
object has a truthy question field, an options array of length at least two,
a truthy answer field strictly-equal to one of the options, and additionally
a string difficulty field; every shape violation yields the validation-error
result and never a success. The choices variant likewise returns success iff
its validation resolves to true (at least two choices, some truthy
correctness flag, exactly one correct, no throwing element) and the
difficulty field is a string, and yields the validation error exactly on a
false validation result. -/
theorem c7_amended_validation (data : Json) :
    (isOkResult (processParsedOptions data) = true ↔
      (validQuestionShape data = true ∧ ∃ d, jsGet data "difficulty" = some (Json.str d))) ∧
    (validQuestionShape data = true ↔
      truthy (jsGet data "question") = true ∧
      ∃ opts, jsGet data "options" = some (Json.arr opts) ∧ 2 ≤ opts.length ∧
        ∃ a, jsGet data "answer" = some a ∧ truthy (some a) = true ∧
          opts.any (fun o => jsEq o a) = true) ∧
    (validQuestionShape data = false →
      processParsedOptions data = ApiResult.invalidStructure) ∧
    (validChoicesShapeE data = Except.ok false →
      processParsedChoices data = ApiResult.invalidStructure) ∧
    (isOkResult (processParsedChoices data) = true ↔
      (validChoicesShapeE data = Except.ok true ∧
        ∃ d, jsGet data "difficulty" = some (Json.str d))) := by
  refine ⟨?_, validQuestionShape_iff data, ?_, ?_, ?_⟩
  · cases hv : validQuestionShape data with
    | false => simp [processParsedOptions, hv, isOkResult]
    | true =>
      cases hj : jsGet data "difficulty" with
      | none => simp [processParsedOptions, hv, hj, isOkResult]
      | some j =>
        cases j <;> simp [processParsedOptions, hv, hj, isOkResult]
  · intro h
    simp [processParsedOptions, h]
  · intro h
    simp [processParsedChoices, h]
  · cases hvc : validChoicesShapeE data with
    | error e => simp [processParsedChoices, hvc, isOkResult]
    | ok b =>
      cases b with
      | false => simp [processParsedChoices, hvc, isOkResult]
      | true =>
        cases hj : jsGet data "difficulty" with
        | none => simp [processParsedChoices, hvc, hj, isOkResult]
        | some j =>
          cases j <;> simp [processParsedChoices, hvc, hj, isOkResult]

/-- C7 amended witness: the shape-valid object with string difficulty "HARD"
is a success on the options endpoint. -/
theorem c7_amended_witness : isOkResult (processParsedOptions exHard) = true :=
  (c7_amended_validation exHard).1.mpr ⟨rfl, "HARD", rfl⟩

/-- C8: on the concrete buffer that is a single well-formed JSON object with
a nested inner object, the non-greedy pattern stops at the first inner right
brace, producing a strict prefix that is not valid JSON; the `.ts` endpoint
surfaces the resulting `JSON.parse` throw through its provider catch and the
app-route variant reports the invalid-response-format error — neither returns
the normalized record, confirming the latent truncation gap. -/
theorem c8_nested_truncation :
    extractJson bufNested.data = some truncatedNested ∧
    beginsWith bufNested.data truncatedNested = true ∧
    truncatedNested.length < bufNested.data.length ∧
    jsonParse bufNested =
      some (Json.obj
        [("question", Json.str "Q"), ("meta", Json.obj [("x", Json.num 1)]),
         ("answer", Json.str "a")]) ∧
    jsonParse (String.mk truncatedNested) = none ∧
    handlerStep bufNested = ApiResult.providerError ∧
    handlerChoicesStep bufNested = ApiResult.invalidResponseFormat :=
  ⟨rfl, rfl, by decide, rfl, rfl, rfl, rfl⟩

end LearningSystem
